import Mathlib

/-!
# Volleyball live-scoring engine: shallow embedding and verification

This file embeds the live match-scoring engine of the repository
(`packages/backend/convex/scoring.ts`, the module exporting `startMatch`,
`addPoint`, `undoPoint`, `endMatch`, `getMatchScore`) together with the
relevant fields of the `matches` table (`packages/backend/convex/schema.ts`).

Modelling conventions:
- JavaScript numbers are modelled as `Int` (all engine arithmetic is `+1`,
  `-1` and comparisons, which `Int` models exactly; in particular the
  `setsWon[side] -= 1` in `undoPoint` really can go below zero in JS, and
  `Int` subtraction preserves that).
- Optional document fields (`scoringFormat?`, `score?`, `pointHistory?`)
  are `Option`s; `match.pointHistory ?? []` becomes `Option.getD _ []`.
- A Convex mutation handler is a function from the loaded document
  (`Option MatchDoc`, `none` = `ctx.db.get` returned null) to
  `Except String MatchDoc`: `throw new Error msg` becomes
  `Except.error msg`, and the final `ctx.db.patch` becomes `Except.ok`
  carrying the patched document.  Each handler in the source performs at
  most one `ctx.db.patch`, and every `throw` precedes it, so this is a
  faithful rendering of the handler's effect on the record.
- The `requireOrgRole` authorization guard is an external collaborator
  (it reads other tables, never the match record); the embedding models
  the authorized case, which is the only one in which the engine's own
  logic runs.
-/

namespace Scoring

/-- The two sides of a match (`sideValidator`). -/
inductive Side where
  | home
  | away
deriving DecidableEq, Repr

/-- Match lifecycle status (schema `matches.status`). -/
inductive MatchStatus where
  | scheduled
  | in_progress
  | completed
deriving DecidableEq, Repr

/-- Scoring format (`scoringFormatValidator`). -/
inductive ScoringFormat where
  | standard
  | avp_beach
deriving DecidableEq, Repr

/-- The rule table returned by `getScoringRules`. -/
structure ScoringRules where
  setsToWin : Int
  pointsPerSet : Int
  tiebreakerPoints : Int
  maxSets : Int
deriving DecidableEq, Repr

/-- `getScoringRules(format)` from the source. -/
def getScoringRules (format : ScoringFormat) : ScoringRules :=
  if format = ScoringFormat.standard then
    { setsToWin := 3, pointsPerSet := 25, tiebreakerPoints := 15, maxSets := 5 }
  else
    { setsToWin := 2, pointsPerSet := 21, tiebreakerPoints := 15, maxSets := 3 }

/-- `checkSetWin(home, away, pointsToWin)` from the source. -/
def checkSetWin (home away pointsToWin : Int) : Option Side :=
  if home ≥ pointsToWin ∧ home - away ≥ 2 then
    some Side.home
  else if away ≥ pointsToWin ∧ away - home ≥ 2 then
    some Side.away
  else
    none

/-- `getPointsToWin(currentSet, rules)` from the source. -/
def getPointsToWin (currentSet : Int) (rules : ScoringRules) : Int :=
  if currentSet = rules.maxSets then rules.tiebreakerPoints else rules.pointsPerSet

/-- One entry of `score.setHistory`. -/
structure SetScore where
  home : Int
  away : Int
deriving DecidableEq, Repr

/-- The `score.setsWon` object. -/
structure SetsWon where
  home : Int
  away : Int
deriving DecidableEq, Repr

/-- `score.setsWon[side]` (JS computed-key read). -/
def SetsWon.side (sw : SetsWon) : Side → Int
  | Side.home => sw.home
  | Side.away => sw.away

/-- `{...score.setsWon, [winner]: score.setsWon[winner] + 1}` (JS computed-key update). -/
def SetsWon.addOne (sw : SetsWon) : Side → SetsWon
  | Side.home => { sw with home := sw.home + 1 }
  | Side.away => { sw with away := sw.away + 1 }

/-- The `matches.score` object from the schema. -/
structure Score where
  currentSet : Int
  home : Int
  away : Int
  setsWon : SetsWon
  setHistory : List SetScore
deriving DecidableEq, Repr

/-- `if (args.side === "home") score.home += 1; else score.away += 1` in `addPoint`. -/
def Score.addSidePoint (s : Score) (side : Side) : Score :=
  if side = Side.home then { s with home := s.home + 1 } else { s with away := s.away + 1 }

/-- One entry of `matches.pointHistory`: the side that scored and the
score *before* the point was applied. -/
structure PointEvent where
  side : Side
  setNumber : Int
  homeScore : Int
  awayScore : Int
deriving DecidableEq, Repr

/-- One entry of `matches.participants` from the schema. -/
structure Participant where
  side : Side
  teamName : Option String
  players : List String
deriving DecidableEq, Repr

/-- The fields of a `matches` document the engine reads or writes, plus the
fields (`organizationId`, `name`, `participants`) it must leave untouched. -/
structure MatchDoc where
  organizationId : Nat
  status : MatchStatus
  name : Option String
  participants : List Participant
  scoringFormat : Option ScoringFormat
  score : Option Score
  pointHistory : Option (List PointEvent)
deriving DecidableEq, Repr

/-- The `startMatch` mutation handler. -/
def startMatch (db : Option MatchDoc) : Except String MatchDoc :=
  match db with
  | none => Except.error "Match not found"
  | some m =>
    if m.status ≠ MatchStatus.scheduled then
      Except.error "Match has already started or completed"
    else if m.scoringFormat = none then
      Except.error "Match does not have a scoring format set"
    else
      Except.ok { m with
        status := MatchStatus.in_progress,
        score := some { currentSet := 1, home := 0, away := 0,
                        setsWon := { home := 0, away := 0 }, setHistory := [] },
        pointHistory := some [] }

/-- The `addPoint` mutation handler. -/
def addPoint (db : Option MatchDoc) (side : Side) : Except String MatchDoc :=
  match db with
  | none => Except.error "Match not found"
  | some m =>
    if m.status ≠ MatchStatus.in_progress then
      Except.error "Match is not in progress"
    else
      match m.score, m.scoringFormat with
      | some score, some scoringFormat =>
        let rules := getScoringRules scoringFormat
        let pointHistory := (m.pointHistory.getD []) ++
          [{ side := side, setNumber := score.currentSet,
             homeScore := score.home, awayScore := score.away }]
        let score := score.addSidePoint side
        let pointsToWin := getPointsToWin score.currentSet rules
        match checkSetWin score.home score.away pointsToWin with
        | some setWinner =>
          let score := { score with
            setHistory := score.setHistory ++ [{ home := score.home, away := score.away }],
            setsWon := score.setsWon.addOne setWinner }
          if score.setsWon.side setWinner ≥ rules.setsToWin then
            Except.ok { m with status := MatchStatus.completed,
                               score := some score,
                               pointHistory := some pointHistory }
          else
            Except.ok { m with
              score := some { score with currentSet := score.currentSet + 1,
                                         home := 0, away := 0 },
              pointHistory := some pointHistory }
        | none =>
          Except.ok { m with score := some score, pointHistory := some pointHistory }
      | _, _ => Except.error "Match score not initialized"

/-- The `undoPoint` mutation handler.  The JS `pointHistory.pop()` is
modelled by `getLast?`/`dropLast`; `setHistory.pop()` likewise. -/
def undoPoint (db : Option MatchDoc) : Except String MatchDoc :=
  match db with
  | none => Except.error "Match not found"
  | some m =>
    if m.status ≠ MatchStatus.in_progress then
      Except.error "Match is not in progress"
    else
      match m.score, m.pointHistory with
      | some score, some ph =>
        match ph.getLast? with
        | none => Except.error "No points to undo"
        | some lastPoint =>
          let pointHistory := ph.dropLast
          if lastPoint.setNumber < score.currentSet then
            match score.setHistory.getLast? with
            | none => Except.error "Cannot undo: set history inconsistent"
            | some previousSet =>
              let setHistory := score.setHistory.dropLast
              let setsWon :=
                if previousSet.home > previousSet.away then
                  { score.setsWon with home := score.setsWon.home - 1 }
                else
                  { score.setsWon with away := score.setsWon.away - 1 }
              Except.ok { m with
                score := some { currentSet := lastPoint.setNumber,
                                home := lastPoint.homeScore,
                                away := lastPoint.awayScore,
                                setsWon := setsWon,
                                setHistory := setHistory },
                pointHistory := some pointHistory }
          else
            Except.ok { m with
              score := some { score with home := lastPoint.homeScore,
                                         away := lastPoint.awayScore },
              pointHistory := some pointHistory }
      | _, _ => Except.error "No points to undo"

/-- The `endMatch` mutation handler.  The optional `winner` argument is
accepted but never used, exactly as in the source. -/
def endMatch (db : Option MatchDoc) (winner : Option Side) : Except String MatchDoc :=
  match db with
  | none => Except.error "Match not found"
  | some m =>
    if m.status = MatchStatus.completed then
      Except.error "Match is already completed"
    else
      Except.ok { m with status := MatchStatus.completed }

/-- The projection returned by the `getMatchScore` query. -/
structure MatchScoreView where
  name : Option String
  status : MatchStatus
  scoringFormat : Option ScoringFormat
  participants : List Participant
  score : Option Score
  canUndo : Bool
deriving DecidableEq, Repr

/-- The `getMatchScore` query handler; `canUndo` is
`(match.pointHistory?.length ?? 0) > 0`. -/
def getMatchScore (db : Option MatchDoc) : Option MatchScoreView :=
  match db with
  | none => none
  | some m =>
    some { name := m.name, status := m.status, scoringFormat := m.scoringFormat,
           participants := m.participants, score := m.score,
           canUndo := decide (0 < (m.pointHistory.getD []).length) }

/-- The post-state of the match record after a handler runs: on `ok` the
patched document, on `error` the document is untouched (every `throw` in
the source precedes the single `ctx.db.patch`). -/
def applyResult (db : Option MatchDoc) (r : Except String MatchDoc) : Option MatchDoc :=
  match r with
  | Except.ok m => some m
  | Except.error _ => db

/-- States of a match record reachable through the engine's own scoring
operations: a successful `startMatch` from any stored document, followed by
any sequence of successful `addPoint` / `undoPoint` calls. -/
inductive Reachable : MatchDoc → Prop where
  | start (m m' : MatchDoc) : startMatch (some m) = Except.ok m' → Reachable m'
  | add (m m' : MatchDoc) (side : Side) :
      Reachable m → addPoint (some m) side = Except.ok m' → Reachable m'
  | undo (m m' : MatchDoc) :
      Reachable m → undoPoint (some m) = Except.ok m' → Reachable m'

/-- The spec's score/status invariant: `score` is present iff
`status ∈ {in_progress, completed}`. -/
def scoreStatusInv (m : MatchDoc) : Prop :=
  m.score.isSome = true ↔
    (m.status = MatchStatus.in_progress ∨ m.status = MatchStatus.completed)

/-! ### Concrete documents used as witnesses and counterexamples -/

/-- A scheduled avp_beach match with no score yet. -/
def sampleScheduled : MatchDoc :=
  { organizationId := 1, status := MatchStatus.scheduled, name := none,
    participants := [], scoringFormat := some ScoringFormat.avp_beach,
    score := none, pointHistory := none }

/-- The score `startMatch` installs. -/
def initialScore : Score :=
  { currentSet := 1, home := 0, away := 0,
    setsWon := { home := 0, away := 0 }, setHistory := [] }

/-- `sampleScheduled` right after `startMatch`. -/
def sampleStarted : MatchDoc :=
  { sampleScheduled with
    status := MatchStatus.in_progress,
    score := some initialScore, pointHistory := some [] }

/-- An in-progress match in the middle of set 1 (avp_beach), 3–2. -/
def sampleMidSet : MatchDoc :=
  { sampleScheduled with
    status := MatchStatus.in_progress,
    score := some { currentSet := 1, home := 3, away := 2,
                    setsWon := { home := 0, away := 0 }, setHistory := [] },
    pointHistory := some [{ side := Side.home, setNumber := 1, homeScore := 2, awayScore := 2 }] }

/-- `sampleMidSet` after `addPoint home`: 4–2 in set 1. -/
def sampleMidSetPlus : MatchDoc :=
  { sampleScheduled with
    status := MatchStatus.in_progress,
    score := some { currentSet := 1, home := 4, away := 2,
                    setsWon := { home := 0, away := 0 }, setHistory := [] },
    pointHistory := some
      [{ side := Side.home, setNumber := 1, homeScore := 2, awayScore := 2 },
       { side := Side.home, setNumber := 1, homeScore := 3, awayScore := 2 }] }

/-- An avp_beach match at match point: home leads 1–0 in sets and 20–10 in
set 2; one more home point wins set 2 (to 21) and with it the match. -/
def sampleMatchPoint : MatchDoc :=
  { sampleScheduled with
    status := MatchStatus.in_progress,
    score := some { currentSet := 2, home := 20, away := 10,
                    setsWon := { home := 1, away := 0 },
                    setHistory := [{ home := 21, away := 15 }] },
    pointHistory := some [{ side := Side.home, setNumber := 2, homeScore := 19, awayScore := 10 }] }

/-- `sampleMatchPoint` after `addPoint home`: the match is completed. -/
def sampleCompleted : MatchDoc :=
  { sampleScheduled with
    status := MatchStatus.completed,
    score := some { currentSet := 2, home := 21, away := 10,
                    setsWon := { home := 2, away := 0 },
                    setHistory := [{ home := 21, away := 15 }, { home := 21, away := 10 }] },
    pointHistory := some
      [{ side := Side.home, setNumber := 2, homeScore := 19, awayScore := 10 },
       { side := Side.home, setNumber := 2, homeScore := 20, awayScore := 10 }] }

/-- An in-progress match whose score was never initialized (used for
rejection witnesses). -/
def sampleBroken : MatchDoc :=
  { sampleScheduled with status := MatchStatus.in_progress }

/-- An in-progress match (3-2 in set 1) whose optional `pointHistory` field
was never written. -/
def sampleNoHistory : MatchDoc :=
  { sampleScheduled with
    status := MatchStatus.in_progress,
    score := some { currentSet := 1, home := 3, away := 2,
                    setsWon := { home := 0, away := 0 }, setHistory := [] } }

/-- `sampleNoHistory` after `addPoint home`. -/
def sampleNoHistoryPlus : MatchDoc :=
  { sampleScheduled with
    status := MatchStatus.in_progress,
    score := some { currentSet := 1, home := 4, away := 2,
                    setsWon := { home := 0, away := 0 }, setHistory := [] },
    pointHistory := some [{ side := Side.home, setNumber := 1, homeScore := 3, awayScore := 2 }] }

/-- `sampleNoHistoryPlus` after `undoPoint`: the score is restored but
`pointHistory` is now `some []`, not absent. -/
def sampleNoHistoryUndone : MatchDoc :=
  { sampleScheduled with
    status := MatchStatus.in_progress,
    score := some { currentSet := 1, home := 3, away := 2,
                    setsWon := { home := 0, away := 0 }, setHistory := [] },
    pointHistory := some [] }

/-! ### C5: the set-win predicate -/

/-- C5: for all non-negative scores and every `pointsToWin`, `checkSetWin`
returns `home` iff `home ≥ pointsToWin ∧ home - away ≥ 2`, returns `away`
iff `away ≥ pointsToWin ∧ away - home ≥ 2`, and otherwise returns no
winner; no hard point ceiling exists beyond the win-by-2 rule. -/
theorem checkSetWin_spec (home away pointsToWin : Int)
    (hh : 0 ≤ home) (ha : 0 ≤ away) :
    (checkSetWin home away pointsToWin = some Side.home ↔
      home ≥ pointsToWin ∧ home - away ≥ 2) ∧
    (checkSetWin home away pointsToWin = some Side.away ↔
      away ≥ pointsToWin ∧ away - home ≥ 2) ∧
    (checkSetWin home away pointsToWin = none ↔
      ¬(home ≥ pointsToWin ∧ home - away ≥ 2) ∧
      ¬(away ≥ pointsToWin ∧ away - home ≥ 2)) := by
  unfold checkSetWin
  split_ifs with h1 h2 <;>
    refine ⟨?_, ?_, ?_⟩ <;> simp_all <;> omega

/-- Witness for `checkSetWin_spec`: a 26–24 set at `pointsToWin = 25` is
won by home (no 25-point ceiling). -/
theorem checkSetWin_spec_witness :
    checkSetWin 26 24 25 = some Side.home :=
  ((checkSetWin_spec 26 24 25 (by decide) (by decide)).1).mpr (by decide)

/-! ### C6: rule table and points-to-win -/

/-- C6: the rule tables are `standard = {3, 25, 15, 5}` and
`avp_beach = {2, 21, 15, 3}`; the points needed to win a set equal
`tiebreakerPoints` exactly when `currentSet = maxSets` and `pointsPerSet`
otherwise; in particular set 3 of avp_beach is played to 15, not 21. -/
theorem getPointsToWin_spec :
    getScoringRules ScoringFormat.standard =
      { setsToWin := 3, pointsPerSet := 25, tiebreakerPoints := 15, maxSets := 5 } ∧
    getScoringRules ScoringFormat.avp_beach =
      { setsToWin := 2, pointsPerSet := 21, tiebreakerPoints := 15, maxSets := 3 } ∧
    (∀ fmt : ScoringFormat,
      getPointsToWin (getScoringRules fmt).maxSets (getScoringRules fmt) =
        (getScoringRules fmt).tiebreakerPoints) ∧
    (∀ (currentSet : Int) (fmt : ScoringFormat),
      currentSet ≠ (getScoringRules fmt).maxSets →
        getPointsToWin currentSet (getScoringRules fmt) =
          (getScoringRules fmt).pointsPerSet) ∧
    getPointsToWin 3 (getScoringRules ScoringFormat.avp_beach) = 15 ∧
    getPointsToWin 3 (getScoringRules ScoringFormat.avp_beach) ≠ 21 := by
  refine ⟨rfl, rfl, ?_, ?_, rfl, by decide⟩
  · intro fmt; cases fmt <;> rfl
  · intro currentSet fmt h
    unfold getPointsToWin
    rw [if_neg h]

/-- Witness for `getPointsToWin_spec`: set 2 of avp_beach is played to 21. -/
theorem getPointsToWin_spec_witness :
    getPointsToWin 2 (getScoringRules ScoringFormat.avp_beach) = 21 :=
  getPointsToWin_spec.2.2.2.1 2 ScoringFormat.avp_beach (by decide)

/-! ### C9: endMatch -/

/-- C9: `endMatch` rejects with "Match is already completed" when the match
is completed; otherwise it succeeds, sets `status := completed` and changes
no other field (the patched document is `{ m with status := completed }`),
and the optional `winner` argument never influences the result. -/
theorem endMatch_spec (m : MatchDoc) (winner : Option Side) :
    (m.status = MatchStatus.completed →
      endMatch (some m) winner = Except.error "Match is already completed") ∧
    (m.status ≠ MatchStatus.completed →
      endMatch (some m) winner = Except.ok { m with status := MatchStatus.completed }) ∧
    (∀ w' : Option Side, endMatch (some m) winner = endMatch (some m) w') := by
  unfold endMatch
  exact ⟨fun h => by simp [h], fun h => by simp [h], fun w' => rfl⟩

/-- Witness for `endMatch_spec`: ending the scheduled sample match flips
only its status. -/
theorem endMatch_spec_witness :
    endMatch (some sampleScheduled) (some Side.home) =
      Except.ok { sampleScheduled with status := MatchStatus.completed } :=
  (endMatch_spec sampleScheduled (some Side.home)).2.1 (by decide)

/-! ### C3: score presence vs status -/

/-- C3 counterexample: `endMatch` on a scheduled, scoreless match succeeds
and yields a `completed` match with no `score`, violating the claimed
invariant `score present ↔ status ∈ {in_progress, completed}`. -/
theorem scoreStatusInv_counterexample :
    endMatch (some sampleScheduled) none =
      Except.ok { sampleScheduled with status := MatchStatus.completed } ∧
    ¬ scoreStatusInv { sampleScheduled with status := MatchStatus.completed } :=
  ⟨rfl, by simp [scoreStatusInv, sampleScheduled]⟩

/-! ### Elimination lemmas for successful operations

Shared helpers: each characterizes the exact patched document a successful
handler run produces. -/

/-- A successful `startMatch` comes from a scheduled match with a scoring
format, and installs the initial score and an empty point history. -/
theorem startMatch_ok_elim (m m' : MatchDoc) (h : startMatch (some m) = Except.ok m') :
    m.status = MatchStatus.scheduled ∧ m.scoringFormat ≠ none ∧
    m' = { m with status := MatchStatus.in_progress,
                  score := some initialScore, pointHistory := some [] } := by
  unfold startMatch at h
  split at h
  next heq => exact Option.noConfusion heq
  next m2 heq =>
    injection heq with heq
    subst heq
    split at h
    next hst => exact Except.noConfusion h
    next hst =>
      split at h
      next hf => exact Except.noConfusion h
      next hf =>
        rw [Except.ok.injEq] at h
        refine ⟨by simpa using hst, hf, ?_⟩
        rw [← h]
        rfl

/-- A successful `addPoint` comes from an in-progress match with a score and
a format, appends one event to the point history, and updates the score by
the no-win / set-win / match-win case of the source. -/
theorem addPoint_ok_elim (m m' : MatchDoc) (side : Side)
    (h : addPoint (some m) side = Except.ok m') :
    ∃ s fmt, m.status = MatchStatus.in_progress ∧ m.score = some s ∧
      m.scoringFormat = some fmt ∧
      (let rules := getScoringRules fmt
       let ph' := m.pointHistory.getD [] ++
         [{ side := side, setNumber := s.currentSet, homeScore := s.home, awayScore := s.away }]
       let s1 := s.addSidePoint side
       let win := checkSetWin s1.home s1.away (getPointsToWin s1.currentSet rules)
       (win = none ∧ m' = { m with score := some s1, pointHistory := some ph' }) ∨
       (∃ w, win = some w ∧
         (let s2 : Score := { s1 with
            setHistory := s1.setHistory ++ [{ home := s1.home, away := s1.away }],
            setsWon := s1.setsWon.addOne w }
          (s2.setsWon.side w ≥ rules.setsToWin ∧
            m' = { m with status := MatchStatus.completed,
                          score := some s2, pointHistory := some ph' }) ∨
          (¬ s2.setsWon.side w ≥ rules.setsToWin ∧
            m' = { m with
              score := some { s2 with currentSet := s2.currentSet + 1, home := 0, away := 0 },
              pointHistory := some ph' })))) := by
  unfold addPoint at h
  split at h
  next heq => exact Option.noConfusion heq
  next m2 heq =>
    injection heq with heq
    subst heq
    split at h
    next hst => exact Except.noConfusion h
    next hst =>
      rw [not_ne_iff] at hst
      split at h
      next s fmt hsc hsf =>
        refine ⟨s, fmt, hst, hsc, hsf, ?_⟩
        simp only [] at h ⊢
        split at h
        next w hwin =>
          refine Or.inr ⟨w, hwin, ?_⟩
          split at h
          next hge =>
            rw [Except.ok.injEq] at h
            exact Or.inl ⟨hge, h.symm⟩
          next hge =>
            rw [Except.ok.injEq] at h
            exact Or.inr ⟨hge, h.symm⟩
        next hwin =>
          rw [Except.ok.injEq] at h
          exact Or.inl ⟨hwin, h.symm⟩
      next x y hx =>
        exact Except.noConfusion h

/-- A successful `undoPoint` comes from an in-progress match with a score
and a non-empty point history, pops the last event, and restores either
within the current set or across the set boundary. -/
theorem undoPoint_ok_elim (m m' : MatchDoc)
    (h : undoPoint (some m) = Except.ok m') :
    ∃ s ph lastPoint, m.status = MatchStatus.in_progress ∧ m.score = some s ∧
      m.pointHistory = some ph ∧ ph.getLast? = some lastPoint ∧
      ((lastPoint.setNumber < s.currentSet ∧
        ∃ previousSet, s.setHistory.getLast? = some previousSet ∧
          m' = { m with
            score := some
              { currentSet := lastPoint.setNumber,
                home := lastPoint.homeScore,
                away := lastPoint.awayScore,
                setsWon :=
                  if previousSet.home > previousSet.away then
                    { s.setsWon with home := s.setsWon.home - 1 }
                  else
                    { s.setsWon with away := s.setsWon.away - 1 },
                setHistory := s.setHistory.dropLast },
            pointHistory := some ph.dropLast }) ∨
       (¬ lastPoint.setNumber < s.currentSet ∧
         m' = { m with
           score := some { s with home := lastPoint.homeScore, away := lastPoint.awayScore },
           pointHistory := some ph.dropLast })) := by
  unfold undoPoint at h
  split at h
  next heq => exact Option.noConfusion heq
  next m2 heq =>
    injection heq with heq
    subst heq
    split at h
    next hst => exact Except.noConfusion h
    next hst =>
      rw [not_ne_iff] at hst
      split at h
      next s ph hsc hph =>
        split at h
        next hlast => exact Except.noConfusion h
        next lastPoint hlast =>
          refine ⟨s, ph, lastPoint, hst, hsc, hph, hlast, ?_⟩
          simp only [] at h
          split at h
          next hset =>
            split at h
            next hprev => exact Except.noConfusion h
            next previousSet hprev =>
              rw [Except.ok.injEq] at h
              exact Or.inl ⟨hset, previousSet, hprev, h.symm⟩
          next hset =>
            rw [Except.ok.injEq] at h
            exact Or.inr ⟨hset, h.symm⟩
      next x y hx =>
        exact Except.noConfusion h

/-! ### C4: rejected operations and their messages -/

/-- C4: every precondition failure rejects with the specified
human-readable message, and a rejected operation leaves the stored match
record entirely unchanged. -/
theorem ops_reject_spec (m : MatchDoc) (side : Side) (w : Option Side) :
    (startMatch none = Except.error "Match not found" ∧
     addPoint none side = Except.error "Match not found" ∧
     undoPoint none = Except.error "Match not found" ∧
     endMatch none w = Except.error "Match not found") ∧
    (m.status ≠ MatchStatus.scheduled →
      startMatch (some m) = Except.error "Match has already started or completed") ∧
    (m.status = MatchStatus.scheduled → m.scoringFormat = none →
      startMatch (some m) = Except.error "Match does not have a scoring format set") ∧
    (m.status ≠ MatchStatus.in_progress →
      addPoint (some m) side = Except.error "Match is not in progress" ∧
      undoPoint (some m) = Except.error "Match is not in progress") ∧
    (m.status = MatchStatus.in_progress → (m.score = none ∨ m.scoringFormat = none) →
      addPoint (some m) side = Except.error "Match score not initialized") ∧
    (m.status = MatchStatus.in_progress →
      (m.score = none ∨ m.pointHistory = none ∨ m.pointHistory = some []) →
      undoPoint (some m) = Except.error "No points to undo") ∧
    (m.status = MatchStatus.completed →
      endMatch (some m) w = Except.error "Match is already completed") ∧
    (∀ (db : Option MatchDoc) (e : String),
      (startMatch db = Except.error e → applyResult db (startMatch db) = db) ∧
      (addPoint db side = Except.error e → applyResult db (addPoint db side) = db) ∧
      (undoPoint db = Except.error e → applyResult db (undoPoint db) = db) ∧
      (endMatch db w = Except.error e → applyResult db (endMatch db w) = db)) := by
  refine ⟨⟨rfl, rfl, rfl, rfl⟩, ?_, ?_, ?_, ?_, ?_, ?_, ?_⟩
  · intro h; simp [startMatch, h]
  · intro h hf; simp [startMatch, h, hf]
  · intro h
    exact ⟨by simp [addPoint, h], by simp [undoPoint, h]⟩
  · intro h hd
    rcases hsc : m.score with _ | s <;> rcases hsf : m.scoringFormat with _ | f <;>
      simp_all [addPoint]
  · intro h hd
    rcases hsc : m.score with _ | s <;> rcases hph : m.pointHistory with _ | l <;>
      simp_all [undoPoint]
  · intro h; simp [endMatch, h]
  · intro db e
    refine ⟨fun h => ?_, fun h => ?_, fun h => ?_, fun h => ?_⟩ <;>
      rw [h] <;> rfl

/-- Witness for `ops_reject_spec`: `addPoint` on a scheduled match and
`undoPoint` on a started match with empty `pointHistory` reject with the
specified messages and write nothing. -/
theorem ops_reject_spec_witness :
    (addPoint (some sampleScheduled) Side.home = Except.error "Match is not in progress" ∧
     undoPoint (some sampleScheduled) = Except.error "Match is not in progress") ∧
    undoPoint (some sampleStarted) = Except.error "No points to undo" ∧
    applyResult (some sampleScheduled) (addPoint (some sampleScheduled) Side.home) =
      some sampleScheduled :=
  ⟨(ops_reject_spec sampleScheduled Side.home none).2.2.2.1 (by decide),
   (ops_reject_spec sampleStarted Side.home none).2.2.2.2.2.1 (by decide)
     (Or.inr (Or.inr rfl)),
   ((ops_reject_spec sampleScheduled Side.home none).2.2.2.2.2.2.2
     (some sampleScheduled) "Match is not in progress").2.1
     (((ops_reject_spec sampleScheduled Side.home none).2.2.2.1 (by decide)).1)⟩

/-! ### C8: pointHistory length changes by exactly one -/

/-- C8: every successful `addPoint` extends `pointHistory` by exactly one
entry (also when the point closes a set or completes the match), and every
successful `undoPoint` shortens it by exactly one entry. -/
theorem pointHistory_length_step (m m' : MatchDoc) (side : Side) :
    (addPoint (some m) side = Except.ok m' →
      ∃ l, m'.pointHistory = some l ∧
        l.length = (m.pointHistory.getD []).length + 1) ∧
    (undoPoint (some m) = Except.ok m' →
      ∃ l l', m.pointHistory = some l ∧ m'.pointHistory = some l' ∧
        l.length = l'.length + 1) := by
  constructor
  · intro h
    obtain ⟨s, fmt, hst, hsc, hsf, hrest⟩ := addPoint_ok_elim m m' side h
    simp only [] at hrest
    rcases hrest with ⟨hwin, hm'⟩ | ⟨w, hwin, hrest2⟩
    · subst hm'
      exact ⟨_, rfl, by simp⟩
    · rcases hrest2 with ⟨hge, hm'⟩ | ⟨hge, hm'⟩ <;> subst hm' <;>
        exact ⟨_, rfl, by simp⟩
  · intro h
    obtain ⟨s, ph, lastPoint, hst, hsc, hph, hlast, hrest⟩ := undoPoint_ok_elim m m' h
    have hne : ph ≠ [] := fun hnil => by simp [hnil] at hlast
    have hlen : 1 ≤ ph.length := List.length_pos.mpr hne
    rcases hrest with ⟨hset, previousSet, hprev, hm'⟩ | ⟨hset, hm'⟩ <;> subst hm' <;>
      exact ⟨ph, ph.dropLast, hph, rfl, by simp [List.length_dropLast]; omega⟩

/-- Witness for `pointHistory_length_step`: the mid-set sample gains one
history entry on `addPoint`. -/
theorem pointHistory_length_step_witness :
    ∃ l, sampleMidSetPlus.pointHistory = some l ∧
      l.length = (sampleMidSet.pointHistory.getD []).length + 1 :=
  (pointHistory_length_step sampleMidSet sampleMidSetPlus Side.home).1 rfl

/-! ### Further helper lemmas -/

/-- A successful `endMatch` comes from a non-completed match and flips only
the status. -/
theorem endMatch_ok_elim (m m' : MatchDoc) (w : Option Side)
    (h : endMatch (some m) w = Except.ok m') :
    m.status ≠ MatchStatus.completed ∧
    m' = { m with status := MatchStatus.completed } := by
  unfold endMatch at h
  split at h
  next heq => exact Option.noConfusion heq
  next m2 heq =>
    injection heq with heq
    subst heq
    split at h
    next hc => exact Except.noConfusion h
    next hc =>
      rw [Except.ok.injEq] at h
      exact ⟨hc, h.symm⟩

/-- Adding a point leaves `currentSet` unchanged. -/
theorem addSidePoint_currentSet (s : Score) (side : Side) :
    (s.addSidePoint side).currentSet = s.currentSet := by
  unfold Score.addSidePoint; split <;> rfl

/-- Adding a point leaves `setsWon` unchanged. -/
theorem addSidePoint_setsWon (s : Score) (side : Side) :
    (s.addSidePoint side).setsWon = s.setsWon := by
  unfold Score.addSidePoint; split <;> rfl

/-- Adding a point leaves `setHistory` unchanged. -/
theorem addSidePoint_setHistory (s : Score) (side : Side) :
    (s.addSidePoint side).setHistory = s.setHistory := by
  unfold Score.addSidePoint; split <;> rfl

/-! ### C3 (amended): score presence vs status -/

/-- C3 amended: the invariant `score present ↔ status ∈ {in_progress,
completed}` holds after every successful `startMatch`, `addPoint` and
`undoPoint` unconditionally, and after every successful `endMatch` from an
in-progress match that has a score; `endMatch` from a scheduled match is
the one violating case (shown separately on a concrete input). -/
theorem scoreStatusInv_preserved (db : Option MatchDoc) (m' : MatchDoc) :
    (startMatch db = Except.ok m' → scoreStatusInv m') ∧
    (∀ side : Side, addPoint db side = Except.ok m' → scoreStatusInv m') ∧
    (undoPoint db = Except.ok m' → scoreStatusInv m') ∧
    (∀ (m : MatchDoc) (w : Option Side), db = some m →
      m.status = MatchStatus.in_progress → m.score.isSome = true →
      endMatch db w = Except.ok m' → scoreStatusInv m') := by
  refine ⟨?_, ?_, ?_, ?_⟩
  · intro h
    cases db with
    | none => exact Except.noConfusion h
    | some m =>
      obtain ⟨hst, hf, hm'⟩ := startMatch_ok_elim m m' h
      subst hm'
      simp [scoreStatusInv]
  · intro side h
    cases db with
    | none => exact Except.noConfusion h
    | some m =>
      obtain ⟨s, fmt, hst, hsc, hsf, hrest⟩ := addPoint_ok_elim m m' side h
      simp only [] at hrest
      rcases hrest with ⟨hwin, hm'⟩ | ⟨w, hwin, ⟨hge, hm'⟩ | ⟨hge, hm'⟩⟩ <;> subst hm' <;>
        simp [scoreStatusInv, hst]
  · intro h
    cases db with
    | none => exact Except.noConfusion h
    | some m =>
      obtain ⟨s, ph, lastPoint, hst, hsc, hph, hlast, hrest⟩ := undoPoint_ok_elim m m' h
      rcases hrest with ⟨hset, prev, hprev, hm'⟩ | ⟨hset, hm'⟩ <;> subst hm' <;>
        simp [scoreStatusInv, hst]
  · intro m w hdb hst hsc h
    subst hdb
    obtain ⟨hc, hm'⟩ := endMatch_ok_elim m m' w h
    subst hm'
    simp [scoreStatusInv, hsc]

/-- Witness for `scoreStatusInv_preserved`: the freshly started sample
match satisfies the invariant. -/
theorem scoreStatusInv_preserved_witness : scoreStatusInv sampleStarted :=
  (scoreStatusInv_preserved (some sampleScheduled) sampleStarted).1 rfl

/-! ### C7: match completion -/

/-- C7: when the point produces a set winner whose `setsWon` count reaches
`setsToWin`, `addPoint` sets `status := completed`, appends the just-reached
set score to `setHistory`, keeps `currentSet` at the deciding set, and
leaves `home`/`away` at their final in-set values (no new set is opened). -/
theorem addPoint_match_completion (m : MatchDoc) (s : Score) (fmt : ScoringFormat)
    (side w : Side) (m' : MatchDoc)
    (hstat : m.status = MatchStatus.in_progress)
    (hsc : m.score = some s) (hfmt : m.scoringFormat = some fmt)
    (hwin : checkSetWin (s.addSidePoint side).home (s.addSidePoint side).away
      (getPointsToWin s.currentSet (getScoringRules fmt)) = some w)
    (hreach : (s.setsWon.addOne w).side w ≥ (getScoringRules fmt).setsToWin)
    (h : addPoint (some m) side = Except.ok m') :
    m'.status = MatchStatus.completed ∧
    m'.score = some
      { currentSet := s.currentSet,
        home := (s.addSidePoint side).home,
        away := (s.addSidePoint side).away,
        setsWon := s.setsWon.addOne w,
        setHistory := s.setHistory ++
          [{ home := (s.addSidePoint side).home, away := (s.addSidePoint side).away }] } := by
  obtain ⟨s2, fmt2, hst2, hsc2, hsf2, hrest⟩ := addPoint_ok_elim m m' side h
  rw [hsc] at hsc2
  injection hsc2 with hsc2
  rw [hfmt] at hsf2
  injection hsf2 with hsf2
  subst hsc2
  subst hsf2
  simp only [] at hrest
  rw [addSidePoint_currentSet] at hrest
  rcases hrest with ⟨hwin2, hm'⟩ | ⟨w2, hwin2, ⟨hge, hm'⟩ | ⟨hge, hm'⟩⟩
  · rw [hwin] at hwin2
    exact Option.noConfusion hwin2
  · rw [hwin] at hwin2
    injection hwin2 with hw
    subst hw
    subst hm'
    constructor
    · rfl
    · simp [addSidePoint_setsWon, addSidePoint_setHistory, addSidePoint_currentSet]
  · rw [hwin] at hwin2
    injection hwin2 with hw
    subst hw
    rw [addSidePoint_setsWon] at hge
    exact absurd hreach hge

/-- Witness for `addPoint_match_completion`: home wins set 2 (21-10) of the
avp_beach sample and the match completes frozen at set 2. -/
theorem addPoint_match_completion_witness :
    sampleCompleted.status = MatchStatus.completed ∧
    sampleCompleted.score = some
      { currentSet := (2 : Int), home := (21 : Int), away := (10 : Int),
        setsWon := { home := 2, away := 0 },
        setHistory := [{ home := 21, away := 15 }, { home := 21, away := 10 }] } := by
  have hc := addPoint_match_completion sampleMatchPoint
    { currentSet := 2, home := 20, away := 10, setsWon := { home := 1, away := 0 },
      setHistory := [{ home := 21, away := 15 }] }
    ScoringFormat.avp_beach Side.home Side.home sampleCompleted
    rfl rfl rfl (by decide) (by decide) rfl
  simpa using hc


/-! ### C10: canUndo on a completed match -/

/-- C10: a match-completing `addPoint` persists the extended point history,
so `getMatchScore` reports `canUndo = true` on the completed match even
though `undoPoint` then rejects with "Match is not in progress". -/
theorem canUndo_on_completed (m m' : MatchDoc) (side : Side)
    (h : addPoint (some m) side = Except.ok m')
    (hc : m'.status = MatchStatus.completed) :
    (∃ ev, m'.pointHistory = some (m.pointHistory.getD [] ++ [ev])) ∧
    (∃ view, getMatchScore (some m') = some view ∧ view.canUndo = true) ∧
    undoPoint (some m') = Except.error "Match is not in progress" := by
  obtain ⟨s, fmt, hst, hsc, hsf, hrest⟩ := addPoint_ok_elim m m' side h
  simp only [] at hrest
  rcases hrest with ⟨hwin, hm'⟩ | ⟨w, hwin, ⟨hge, hm'⟩ | ⟨hge, hm'⟩⟩
  · subst hm'; simp_all
  · subst hm'
    refine ⟨⟨_, rfl⟩, ⟨_, rfl, ?_⟩, ?_⟩
    · simp [getMatchScore]
    · simp [undoPoint]
  · subst hm'; simp_all

/-- Witness for `canUndo_on_completed` at the avp_beach match-point
sample. -/
theorem canUndo_on_completed_witness :
    (∃ ev, sampleCompleted.pointHistory =
      some (sampleMatchPoint.pointHistory.getD [] ++ [ev])) ∧
    (∃ view, getMatchScore (some sampleCompleted) = some view ∧ view.canUndo = true) ∧
    undoPoint (some sampleCompleted) = Except.error "Match is not in progress" :=
  canUndo_on_completed sampleMatchPoint sampleCompleted Side.home rfl rfl

/-! ### C2: setsWon sum equals setHistory length -/

/-- C2: in every match state reachable through `startMatch` / `addPoint` /
`undoPoint`, the score satisfies
`setsWon.home + setsWon.away = setHistory.length`. -/
theorem setsWon_sum_eq_setHistory_length (m : MatchDoc) (hm : Reachable m)
    (s : Score) (hs : m.score = some s) :
    s.setsWon.home + s.setsWon.away = (s.setHistory.length : Int) := by
  induction hm generalizing s with
  | start m0 m' h =>
    obtain ⟨hst, hf, hm'⟩ := startMatch_ok_elim m0 m' h
    subst hm'
    simp only [initialScore] at hs
    injection hs with hs
    subst hs
    rfl
  | add m0 m' side hr h ih =>
    obtain ⟨s0, fmt, hst, hsc, hsf, hrest⟩ := addPoint_ok_elim m0 m' side h
    have inv0 := ih s0 hsc
    simp only [] at hrest
    rcases hrest with ⟨hwin, hm'⟩ | ⟨w, hwin, ⟨hge, hm'⟩ | ⟨hge, hm'⟩⟩ <;> subst hm' <;>
      simp only [MatchDoc.score] at hs <;> injection hs with hs <;> subst hs
    · rw [addSidePoint_setsWon, addSidePoint_setHistory]
      exact inv0
    · cases w <;>
        simp [addSidePoint_setsWon, addSidePoint_setHistory, SetsWon.addOne] <;>
        omega
    · cases w <;>
        simp [addSidePoint_setsWon, addSidePoint_setHistory, SetsWon.addOne] <;>
        omega
  | undo m0 m' hr h ih =>
    obtain ⟨s0, ph, lastPoint, hst, hsc, hph, hlast, hrest⟩ := undoPoint_ok_elim m0 m' h
    have inv0 := ih s0 hsc
    rcases hrest with ⟨hset, prev, hprev, hm'⟩ | ⟨hset, hm'⟩ <;> subst hm' <;>
      simp only [MatchDoc.score] at hs <;> injection hs with hs <;> subst hs
    · have hne : s0.setHistory ≠ [] := by
        intro hnil; rw [hnil] at hprev; simp at hprev
      have hlen : 1 ≤ s0.setHistory.length := List.length_pos.mpr hne
      by_cases hcmp : prev.home > prev.away <;>
        simp [hcmp, List.length_dropLast] <;> omega
    · simpa using inv0

/-- Witness for `setsWon_sum_eq_setHistory_length` at the freshly started
sample match. -/
theorem setsWon_sum_eq_setHistory_length_witness :
    initialScore.setsWon.home + initialScore.setsWon.away =
      (initialScore.setHistory.length : Int) :=
  setsWon_sum_eq_setHistory_length sampleStarted
    (Reachable.start sampleScheduled sampleStarted rfl) initialScore rfl


/-- If `checkSetWin` declares home the winner, home leads. -/
theorem checkSetWin_home_gt (home away ptw : Int)
    (h : checkSetWin home away ptw = some Side.home) : away < home := by
  unfold checkSetWin at h
  split_ifs at h with h1 h2 <;> simp_all <;> omega

/-- If `checkSetWin` declares away the winner, away leads. -/
theorem checkSetWin_away_gt (home away ptw : Int)
    (h : checkSetWin home away ptw = some Side.away) : home < away := by
  unfold checkSetWin at h
  split_ifs at h with h1 h2 <;> simp_all <;> omega

/-! ### C1 (amended): addPoint/undoPoint round-trip -/

/-- C1 amended: from any state satisfying `addPoint`'s preconditions with
`pointHistory` present, if the `addPoint` leaves the match `in_progress`
(the point does not complete the match), an immediate `undoPoint` succeeds
and restores `score` and `pointHistory` exactly, both for an in-set point
and for a point that closes a non-deciding set.  When the point completes
the match, or when `pointHistory` was absent, the round-trip fails (shown
separately on concrete inputs). -/
theorem addPoint_undoPoint_roundtrip (m : MatchDoc) (side : Side) (s : Score)
    (ph : List PointEvent) (m1 : MatchDoc)
    (hstat : m.status = MatchStatus.in_progress)
    (hsc : m.score = some s)
    (hph : m.pointHistory = some ph)
    (h1 : addPoint (some m) side = Except.ok m1)
    (h2 : m1.status = MatchStatus.in_progress) :
    ∃ m2, undoPoint (some m1) = Except.ok m2 ∧
      m2.score = m.score ∧ m2.pointHistory = m.pointHistory := by
  obtain ⟨s0, fmt, hst0, hsc0, hsf0, hrest⟩ := addPoint_ok_elim m m1 side h1
  rw [hsc] at hsc0
  injection hsc0 with hsc0
  subst hsc0
  simp only [] at hrest
  rw [hph] at hrest
  rcases hrest with ⟨hwin, hm1⟩ | ⟨w, hwin, ⟨hge, hm1⟩ | ⟨hge, hm1⟩⟩
  · -- in-set case
    subst hm1
    obtain ⟨cs, sh, sa, sw, shist⟩ := s
    refine ⟨{ m with score := some ⟨cs, sh, sa, sw, shist⟩, pointHistory := some ph },
      ?_, by simp [hsc], by simp [hph]⟩
    cases side <;>
      simp [undoPoint, hstat, Score.addSidePoint, Option.getD,
            List.getLast?_concat, List.dropLast_concat]
  · -- match-completing case: contradicts h2
    subst hm1
    simp at h2
  · -- set-closing, next-set case
    subst hm1
    obtain ⟨cs, sh, sa, sw, shist⟩ := s
    refine ⟨{ m with score := some ⟨cs, sh, sa, sw, shist⟩, pointHistory := some ph },
      ?_, by simp [hsc], by simp [hph]⟩
    have hlt : cs < cs + 1 := by omega
    rcases w with _ | _ <;> cases side
    · simp only [Score.addSidePoint, if_pos] at hwin
      have hgt := checkSetWin_home_gt _ _ _ hwin
      simp at hgt
      simp [undoPoint, hstat, Score.addSidePoint, SetsWon.addOne, Option.getD,
            List.getLast?_concat, List.dropLast_concat, hlt, hgt]
    · simp only [Score.addSidePoint] at hwin
      simp at hwin
      have hgt := checkSetWin_home_gt _ _ _ hwin
      simp [undoPoint, hstat, Score.addSidePoint, SetsWon.addOne, Option.getD,
            List.getLast?_concat, List.dropLast_concat, hlt, hgt]
    · simp only [Score.addSidePoint] at hwin
      simp at hwin
      have hgt := checkSetWin_away_gt _ _ _ hwin
      have hnot : ¬ (sa < sh + 1) := by omega
      simp [undoPoint, hstat, Score.addSidePoint, SetsWon.addOne, Option.getD,
            List.getLast?_concat, List.dropLast_concat, hlt, hnot]
    · simp only [Score.addSidePoint] at hwin
      simp at hwin
      have hgt := checkSetWin_away_gt _ _ _ hwin
      have hnot : ¬ (sa + 1 < sh) := by omega
      simp [undoPoint, hstat, Score.addSidePoint, SetsWon.addOne, Option.getD,
            List.getLast?_concat, List.dropLast_concat, hlt, hnot]


/-- Witness for `addPoint_undoPoint_roundtrip`: adding and undoing a home
point at 3-2 in set 1 restores the sample state. -/
theorem addPoint_undoPoint_roundtrip_witness :
    ∃ m2, undoPoint (some sampleMidSetPlus) = Except.ok m2 ∧
      m2.score = sampleMidSet.score ∧ m2.pointHistory = sampleMidSet.pointHistory :=
  addPoint_undoPoint_roundtrip sampleMidSet Side.home
    { currentSet := 1, home := 3, away := 2,
      setsWon := { home := 0, away := 0 }, setHistory := [] }
    [{ side := Side.home, setNumber := 1, homeScore := 2, awayScore := 2 }]
    sampleMidSetPlus rfl rfl rfl rfl rfl

/-- C1 counterexample, two failing cases of the claim as stated.  First: a
point that closes the deciding set satisfies all of the claim's
preconditions, but completes the match, so the immediate `undoPoint`
rejects with "Match is not in progress" and the pre-`addPoint` `score`
and `pointHistory` are not restored.  Second: when `pointHistory` is
absent (which the claim's preconditions allow), the round-trip leaves
`pointHistory = some []`, not absent, so deep equality fails. -/
theorem addPoint_undoPoint_roundtrip_counterexample :
    (sampleMatchPoint.status = MatchStatus.in_progress ∧
     sampleMatchPoint.score.isSome = true ∧
     sampleMatchPoint.scoringFormat.isSome = true ∧
     addPoint (some sampleMatchPoint) Side.home = Except.ok sampleCompleted ∧
     undoPoint (some sampleCompleted) = Except.error "Match is not in progress" ∧
     sampleCompleted.score ≠ sampleMatchPoint.score ∧
     sampleCompleted.pointHistory ≠ sampleMatchPoint.pointHistory) ∧
    (sampleNoHistory.status = MatchStatus.in_progress ∧
     sampleNoHistory.score.isSome = true ∧
     sampleNoHistory.scoringFormat.isSome = true ∧
     addPoint (some sampleNoHistory) Side.home = Except.ok sampleNoHistoryPlus ∧
     undoPoint (some sampleNoHistoryPlus) = Except.ok sampleNoHistoryUndone ∧
     sampleNoHistoryUndone.score = sampleNoHistory.score ∧
     sampleNoHistoryUndone.pointHistory ≠ sampleNoHistory.pointHistory) := by
  refine ⟨⟨rfl, rfl, rfl, rfl, rfl, ?_, ?_⟩, rfl, rfl, rfl, rfl, rfl, rfl, ?_⟩ <;> decide


end Scoring
